import Mathlib

/-
  Verification development for the AdGuardHome DNS-rewrite subsystem
  (internal/filtering/rewrite/storage.go).

  The Go code is shallowly embedded: pure functions become Lean functions,
  the storage methods become explicit state passing over a `DefaultStorage`
  record, and the external matching-engine collaborator (urlfilter) is a
  parameter `EngineOps` exposing exactly the build interface the store uses
  (`filterlist.NewRuleStorage`, which may fail, and `urlfilter.NewDNSEngine`).
-/

namespace AdGuard

/-! ### strings.ToLower

Model of Go `strings.ToLower`, restricted to the ASCII range (Go applies the
full Unicode simple mapping; domain names handled by this package are ASCII).
The character is rebuilt explicitly so that arithmetic facts about the result
are definitional. -/

def goLowerChar (c : Char) : Char :=
  if h : 65 ≤ c.toNat ∧ c.toNat ≤ 90 then
    ⟨⟨c.toNat + 32, by omega⟩, by
      have hv : (⟨⟨c.toNat + 32, by omega⟩⟩ : UInt32).toNat = c.toNat + 32 := rfl
      simp only [UInt32.isValidChar, Nat.isValidChar, hv]
      exact Or.inl (by omega)⟩
  else c

def goToLower (s : String) : String :=
  String.mk (s.data.map goLowerChar)

/-! ### miekg/dns record-type table

`dns.TypeA`, `dns.TypeAAAA`, `dns.TypeCNAME` and the slice of
`dns.TypeToString` reachable from this package (the `Type` field is only ever
assigned one of the three codes below by `Normalize`; the remaining entries of
the full table are irrelevant to the storage code and elided). -/

namespace dns

def TypeA : Nat := 1

def TypeCNAME : Nat := 5

def TypeAAAA : Nat := 28

def TypeToString (t : Nat) : String :=
  if t = 1 then "A"
  else if t = 2 then "NS"
  else if t = 5 then "CNAME"
  else if t = 6 then "SOA"
  else if t = 12 then "PTR"
  else if t = 15 then "MX"
  else if t = 16 then "TXT"
  else if t = 28 then "AAAA"
  else ""

end dns

/-! ### net.ParseIP

Model of Go `net.ParseIP` (Go ≥1.18, which delegates to `netip.ParseAddr` and
rejects zoned addresses).  `parseIP` returns the 16-byte representation
(`Addr.As16`): dotted-decimal IPv4 input yields the IPv4-in-IPv6 mapped form,
exactly as `net.ParseIP` does.  `to4` models `IP.To4` on such 16-byte values. -/

def digitVal (c : Char) : Option Nat :=
  if 48 ≤ c.toNat ∧ c.toNat ≤ 57 then some (c.toNat - 48) else none

def hexVal (c : Char) : Option Nat :=
  if 48 ≤ c.toNat ∧ c.toNat ≤ 57 then some (c.toNat - 48)
  else if 97 ≤ c.toNat ∧ c.toNat ≤ 102 then some (c.toNat - 97 + 10)
  else if 65 ≤ c.toNat ∧ c.toNat ≤ 70 then some (c.toNat - 65 + 10)
  else none

/-- Model of `netip.parseIPv4Fields`: exactly four dot-separated decimal
fields, each 0–255, no empty field, no leading zeros.  `val`, `digLen`, `pos`
and `acc` mirror the Go loop state (`acc` collects the completed fields). -/
def parseIPv4Fields : List Char → Nat → Nat → Nat → List Nat → Option (List Nat)
  | [], val, _digLen, pos, acc =>
    if pos < 3 then none
    else some (acc ++ [val])
  | c :: cs, val, digLen, pos, acc =>
    match digitVal c with
    | some d =>
      if digLen = 1 ∧ val = 0 then none
      else if val * 10 + d > 255 then none
      else parseIPv4Fields cs (val * 10 + d) (digLen + 1) pos acc
    | none =>
      if c = '.' then
        if digLen = 0 ∨ cs = [] then none
        else if pos = 3 then none
        else parseIPv4Fields cs 0 0 (pos + 1) (acc ++ [val])
      else none

/-- Model of the inlined hex-field scanner of `netip.parseIPv6`: consumes the
maximal run of hex digits, returning `(value, digitCount, rest)`; `none`
signals the field-overflow error (acc exceeding `MaxUint16`). -/
def scanHex : List Char → Nat → Nat → Option (Nat × Nat × List Char)
  | [], acc, n => some (acc, n, [])
  | c :: cs, acc, n =>
    match hexVal c with
    | none => some (acc, n, c :: cs)
    | some d =>
      if acc * 16 + d > 65535 then none
      else scanHex cs (acc * 16 + d) (n + 1)

/-- Main loop of `netip.parseIPv6`.  `ip` holds the bytes parsed so far
(`i = ip.length`), `ell` the ellipsis position.  Each iteration adds at least
two bytes, so fuel `16` is never exhausted before `i` reaches `16`. -/
def v6Loop : Nat → List Char → List Nat → Option Nat →
    Option (List Char × List Nat × Option Nat)
  | 0, s, ip, ell => some (s, ip, ell)
  | fuel + 1, s, ip, ell =>
    if ip.length ≥ 16 then some (s, ip, ell)
    else
      match scanHex s 0 0 with
      | none => none
      | some (acc, off, rest) =>
        if off = 0 then none
        else
          match rest with
          | '.' :: _ =>
            if ell = none ∧ ip.length ≠ 12 then none
            else if ip.length + 4 > 16 then none
            else
              match parseIPv4Fields s 0 0 0 [] with
              | none => none
              | some f4 => some ([], ip ++ f4, ell)
          | [] => some ([], ip ++ [acc / 256, acc % 256], ell)
          | ':' :: [] => none
          | ':' :: ':' :: rest2 =>
            if ell.isSome then none
            else
              match rest2 with
              | [] => some ([], ip ++ [acc / 256, acc % 256], some (ip.length + 2))
              | _ => v6Loop fuel rest2 (ip ++ [acc / 256, acc % 256])
                  (some (ip.length + 2))
          | ':' :: rest2 => v6Loop fuel rest2 (ip ++ [acc / 256, acc % 256]) ell
          | _ => none

/-- Model of `netip.parseIPv6` minus zone handling: `net.ParseIP` rejects any
address carrying a `%` zone, so a `%` anywhere makes the parse fail (handled
in `parseIP` and by the character checks here). -/
def parseIPv6 (s : List Char) : Option (List Nat) :=
  match s with
  | ':' :: ':' :: rest =>
    if rest = [] then some (List.replicate 16 0)
    else parseIPv6Tail rest (some 0)
  | _ => parseIPv6Tail s none
where
  parseIPv6Tail (s : List Char) (ell : Option Nat) : Option (List Nat) :=
    match v6Loop 16 s [] ell with
    | none => none
    | some (sRem, ip, ellF) =>
      if sRem ≠ [] then none
      else if ip.length < 16 then
        match ellF with
        | none => none
        | some e => some (ip.take e ++ List.replicate (16 - ip.length) 0 ++ ip.drop e)
      else if ellF.isSome then none
      else some ip

/-- Dispatch loop of `netip.ParseAddr`: the first `.`, `:` or `%` decides the
parser; no such byte means failure. -/
def dispatchIP : List Char → Option Bool
  | [] => none
  | c :: cs =>
    if c = '.' then some true
    else if c = ':' then some false
    else if c = '%' then none
    else dispatchIP cs

def v4InV6Prefix : List Nat := [0, 0, 0, 0, 0, 0, 0, 0, 0, 0, 255, 255]

/-- Model of `net.ParseIP`: `none` for unparsable input, otherwise the 16-byte
form (IPv4 input mapped into IPv6 as `As16` does). -/
def parseIP (s : String) : Option (List Nat) :=
  match dispatchIP s.data with
  | some true =>
    match parseIPv4Fields s.data 0 0 0 [] with
    | none => none
    | some f4 => some (v4InV6Prefix ++ f4)
  | some false => parseIPv6 s.data
  | none => none

/-- Model of `IP.To4` on the 16-byte values produced by `parseIP`. -/
def to4 (ip : List Nat) : Option (List Nat) :=
  if ip.take 12 = v4InV6Prefix then some (ip.drop 12) else none

/-! ### Item (storage.go)

`Item` is a single DNS rewrite record.  The Go field `Type` (a `uint16`) is
named `Typ` here because `Type` is reserved in Lean. -/

structure Item where
  Domain : String
  Answer : String
  Typ : Nat
  Exception : Bool
  deriving DecidableEq, Repr

/-- Model of `(*Item).equal`.  The Go receiver and argument are pointers that
may be nil, hence `Option Item`. -/
def Item.equal (rw other : Option Item) : Bool :=
  match rw, other with
  | none, o => o.isNone
  | some _, none => false
  | some a, some b => a.Domain == b.Domain && a.Answer == b.Answer

/-- Model of `(*Item).toRule`. -/
def Item.toRule (rw : Item) : String :=
  if rw.Exception then
    "@@||" ++ rw.Domain ++ "^$dnstype=" ++ dns.TypeToString rw.Typ ++ ",dnsrewrite"
  else
    "|" ++ rw.Domain ++ "^$dnsrewrite=NOERROR;" ++ dns.TypeToString rw.Typ ++ ";" ++ rw.Answer

/-- Body of `(*Item).Normalize` for a non-nil receiver: the in-place mutation
is modelled as returning the updated record. -/
def Item.normalize (rw0 : Item) : Item :=
  let rw : Item := { rw0 with Domain := goToLower rw0.Domain }
  if rw.Answer = "AAAA" then { rw with Typ := dns.TypeAAAA, Exception := true }
  else if rw.Answer = "A" then { rw with Typ := dns.TypeA, Exception := true }
  else
    match parseIP rw.Answer with
    | none => { rw with Typ := dns.TypeCNAME }
    | some ip => if (to4 ip).isSome then { rw with Typ := dns.TypeA }
                 else { rw with Typ := dns.TypeAAAA }

/-- Model of `(*Item).Normalize` including the nil-receiver check. -/
def Item.Normalize : Option Item → Except String Item
  | none => Except.error "nil rewrite entry"
  | some rw => Except.ok rw.normalize

/-! ### DefaultStorage (storage.go)

The urlfilter collaborator is abstracted as `EngineOps`, the exact build
interface the store consumes (§4.4 of the design: build is external and may
fail).  `RS` is the rule-storage type (`filterlist.RuleStorage`), `E` the
engine type (`urlfilter.DNSEngine`). -/

structure StringRuleList where
  ID : Int
  RulesText : String
  IgnoreCosmetic : Bool
  deriving DecidableEq, Repr

structure EngineOps (RS E : Type) where
  newRuleStorage : List StringRuleList → Except String RS
  newDNSEngine : RS → E

/-- Model of `DefaultStorage`.  The mutex only serializes access and is not
represented; `rewrites` holds the items by value (no storage method mutates an
item in place, so value semantics coincide with Go's pointer slice for every
claim about the store itself; aliasing of `List` results is modelled
separately below). -/
structure DefaultStorage (E : Type) where
  urlFilterID : Int
  ruleList : StringRuleList
  engine : E
  rewrites : List Item
  deriving DecidableEq

/-- The rule list `resetRules` constructs: one `StringRuleList` holding the
newline-joined `toRule` text of every item, tagged with the store's ID. -/
def mkStrList (id : Int) (rws : List Item) : StringRuleList :=
  { ID := id
    RulesText := String.intercalate "\n" (rws.map Item.toRule)
    IgnoreCosmetic := true }

/-- Model of `(*DefaultStorage).resetRules`: on build failure the state is
returned unchanged (the Go method returns before the assignments), on success
`ruleList` and `engine` are committed. -/
def resetRules (ops : EngineOps RS E) (s : DefaultStorage E) :
    Except String Unit × DefaultStorage E :=
  match ops.newRuleStorage [mkStrList s.urlFilterID s.rewrites] with
  | Except.error e => (Except.error ("creating list storage: " ++ e), s)
  | Except.ok rs =>
    (Except.ok (), { s with ruleList := mkStrList s.urlFilterID s.rewrites,
                            engine := ops.newDNSEngine rs })

/-- Model of `NewDefaultStorage`.  The Go code allocates the store and then
calls `resetRules`; on failure no store is returned, so the transient
nil-engine value never escapes and construction is written directly. -/
def NewDefaultStorage (ops : EngineOps RS E) (listID : Int) (rewrites : List Item) :
    Except String (DefaultStorage E) :=
  match ops.newRuleStorage [mkStrList listID rewrites] with
  | Except.error e => Except.error ("creating list storage: " ++ e)
  | Except.ok rs =>
    Except.ok { urlFilterID := listID, ruleList := mkStrList listID rewrites,
                engine := ops.newDNSEngine rs, rewrites := rewrites }

/-- Model of `(*DefaultStorage).Add`. -/
def DefaultStorage.Add (ops : EngineOps RS E) (s : DefaultStorage E) (item : Item) :
    Except String Unit × DefaultStorage E :=
  resetRules ops { s with rewrites := s.rewrites ++ [item] }

/-- Model of `(*DefaultStorage).Remove`: keeps exactly the entries not `equal`
to `item`, then rebuilds. -/
def DefaultStorage.Remove (ops : EngineOps RS E) (s : DefaultStorage E) (item : Item) :
    Except String Unit × DefaultStorage E :=
  resetRules ops
    { s with rewrites := s.rewrites.filter (fun ent => !Item.equal (some ent) (some item)) }

/-- Model of `(*DefaultStorage).List` (`slices.Clone(s.rewrites)`): the clone
has the same elements. -/
def DefaultStorage.List (s : DefaultStorage E) : List Item :=
  s.rewrites

/-- Sequential `Add` calls; the Bool records whether every call succeeded. -/
def addAll (ops : EngineOps RS E) : DefaultStorage E → List Item → Bool × DefaultStorage E
  | s, [] => (true, s)
  | s, it :: its =>
    match DefaultStorage.Add ops s it with
    | (Except.ok _, s2) => addAll ops s2 its
    | (Except.error _, s2) => (false, s2)

/-- States reachable from a successful construction through `Add`/`Remove`
calls whose rebuild succeeded. -/
inductive ReachableOK (ops : EngineOps RS E) : DefaultStorage E → Prop where
  | new : ∀ listID rws s, NewDefaultStorage ops listID rws = Except.ok s →
      ReachableOK ops s
  | add : ∀ s item s2, ReachableOK ops s →
      DefaultStorage.Add ops s item = (Except.ok (), s2) → ReachableOK ops s2
  | remove : ∀ s item s2, ReachableOK ops s →
      DefaultStorage.Remove ops s item = (Except.ok (), s2) → ReachableOK ops s2

/-! ### Pointer-level view of List (aliasing)

Go's `List` returns `slices.Clone(s.rewrites)`: a fresh `[]*Item` whose
entries are the *same* `*Item` pointers the store holds.  To reason about
that sharing, the slice of pointers is modelled as a list of addresses into a
heap `Nat → Item`. -/

structure HeapStorage where
  rewrites : List Nat
  deriving DecidableEq

/-- Pointer-level `List`: `slices.Clone` copies the slice, so the returned
value is a fresh slice containing the same addresses. -/
def HeapStorage.ListPtrs (s : HeapStorage) : List Nat :=
  s.rewrites

/-- Mutation of the item a pointer refers to (what a caller does when it
mutates an `*Item` obtained from `List`). -/
def heapWrite (heap : Nat → Item) (a : Nat) (it : Item) : Nat → Item :=
  fun b => if b = a then it else heap b

/-- The item sequence a reader observes: the store's pointers, dereferenced. -/
def HeapStorage.observed (heap : Nat → Item) (s : HeapStorage) : List Item :=
  s.rewrites.map heap

/-! ### Concrete engine instances used by witnesses and counterexamples -/

/-- An engine collaborator whose build always succeeds. -/
def okOps : EngineOps Unit Unit :=
  { newRuleStorage := fun _ => Except.ok ()
    newDNSEngine := fun _ => () }

/-- An engine collaborator that builds successfully exactly from empty rule
text: it exercises the rebuild-failure path of `Add`/`Remove` after a
successful construction from no items. -/
def failOps : EngineOps Unit Unit :=
  { newRuleStorage := fun ls =>
      if ls.all (fun l => l.RulesText == "") then Except.ok () else Except.error "boom"
    newDNSEngine := fun _ => () }

/-- A normalized IPv4 rewrite item. -/
def cexItem : Item := ⟨"example.org", "1.2.3.4", dns.TypeA, false⟩

/-- The store `NewDefaultStorage failOps 1 []` returns. -/
def c1s0 : DefaultStorage Unit := ⟨1, ⟨1, "", true⟩, (), []⟩

/-- The store `NewDefaultStorage okOps 7 []` returns. -/
def w2state : DefaultStorage Unit := ⟨7, ⟨7, "", true⟩, (), []⟩

/-- The state after a successful `Add` of `cexItem` to `w2state`. -/
def w2s1 : DefaultStorage Unit := (DefaultStorage.Add okOps w2state cexItem).2

/-- An entry that stays in the store across the C4 scenario. -/
def s4other : Item := ⟨"keep.example", "5.6.7.8", dns.TypeA, false⟩

/-- The item handed to `Remove` in the C4 scenario. -/
def s4item : Item := ⟨"x.example", "1.2.3.4", dns.TypeA, false⟩

/-- Structurally equal to `s4item` (only the derived fields differ). -/
def s4a : Item := ⟨"x.example", "1.2.3.4", 99, true⟩

/-- A store holding only `s4other`. -/
def s4 : DefaultStorage Unit := ⟨2, mkStrList 2 [s4other], (), [s4other]⟩

def c7heap : Nat → Item := fun _ => ⟨"old.example", "1.2.3.4", dns.TypeA, false⟩

def c7store : HeapStorage := ⟨[0]⟩

def c7item : Item := ⟨"new.example", "5.6.7.8", dns.TypeA, false⟩

/-- The store `NewDefaultStorage okOps 3 []` returns. -/
def w8s0 : DefaultStorage Unit := ⟨3, ⟨3, "", true⟩, (), []⟩

def w8a : Item := ⟨"a.example", "1.2.3.4", dns.TypeA, false⟩

def w8b : Item := ⟨"b.example", "cname.example", dns.TypeCNAME, false⟩

/-! ### Helper lemmas -/

theorem goLowerChar_toNat (c : Char) (h : 65 ≤ c.toNat ∧ c.toNat ≤ 90) :
    (goLowerChar c).toNat = c.toNat + 32 := by
  unfold goLowerChar
  rw [dif_pos h]
  rfl

theorem goLowerChar_of_not (c : Char) (h : ¬(65 ≤ c.toNat ∧ c.toNat ≤ 90)) :
    goLowerChar c = c := by
  unfold goLowerChar
  rw [dif_neg h]

theorem goLowerChar_idem (c : Char) : goLowerChar (goLowerChar c) = goLowerChar c := by
  by_cases h : 65 ≤ c.toNat ∧ c.toNat ≤ 90
  · have h1 : (goLowerChar c).toNat = c.toNat + 32 := goLowerChar_toNat c h
    exact goLowerChar_of_not (goLowerChar c) (by rw [h1]; omega)
  · rw [goLowerChar_of_not c h, goLowerChar_of_not c h]

theorem goToLower_idem (s : String) : goToLower (goToLower s) = goToLower s := by
  unfold goToLower
  apply String.ext
  show (s.data.map goLowerChar).map goLowerChar = s.data.map goLowerChar
  rw [List.map_map]
  exact List.map_congr_left (fun c _ => goLowerChar_idem c)

/-- Characterization of `Item.normalize` by the case analysis of the source:
sentinel answers first, then the IP parse, with `Exception` preserved by the
non-sentinel branches. -/
theorem normalize_eq (it : Item) :
    it.normalize =
      { Domain := goToLower it.Domain
        Answer := it.Answer
        Typ :=
          if it.Answer = "AAAA" then dns.TypeAAAA
          else if it.Answer = "A" then dns.TypeA
          else
            match parseIP it.Answer with
            | none => dns.TypeCNAME
            | some ip => if (to4 ip).isSome then dns.TypeA else dns.TypeAAAA
        Exception := if it.Answer = "AAAA" ∨ it.Answer = "A" then true else it.Exception } := by
  unfold Item.normalize
  by_cases h1 : it.Answer = "AAAA"
  · simp [h1]
  · by_cases h2 : it.Answer = "A"
    · simp [h1, h2]
    · simp only [h1, h2, if_false, or_self, if_neg (by simp [h1, h2] : ¬(it.Answer = "AAAA" ∨ it.Answer = "A"))]
      cases hp : parseIP it.Answer with
      | none => simp [hp]
      | some ip => cases h4 : (to4 ip).isSome <;> simp [hp, h4]

theorem resetRules_error (ops : EngineOps RS E) (s : DefaultStorage E) (e : String)
    (h : ops.newRuleStorage [mkStrList s.urlFilterID s.rewrites] = Except.error e) :
    resetRules ops s = (Except.error ("creating list storage: " ++ e), s) := by
  unfold resetRules
  rw [h]

theorem resetRules_ok (ops : EngineOps RS E) (s : DefaultStorage E) (rs : RS)
    (h : ops.newRuleStorage [mkStrList s.urlFilterID s.rewrites] = Except.ok rs) :
    resetRules ops s =
      (Except.ok (), { s with ruleList := mkStrList s.urlFilterID s.rewrites,
                              engine := ops.newDNSEngine rs }) := by
  unfold resetRules
  rw [h]

theorem resetRules_frame (ops : EngineOps RS E) (s : DefaultStorage E) :
    (resetRules ops s).2.rewrites = s.rewrites ∧
    (resetRules ops s).2.urlFilterID = s.urlFilterID := by
  unfold resetRules
  cases ops.newRuleStorage [mkStrList s.urlFilterID s.rewrites] <;> simp

theorem add_append_rewrites (ops : EngineOps RS E) (t : DefaultStorage E) (x : Item) :
    (DefaultStorage.Add ops t x).2.rewrites = t.rewrites ++ [x] :=
  (resetRules_frame ops { t with rewrites := t.rewrites ++ [x] }).1

theorem reachableOK_invariant (ops : EngineOps RS E) (s : DefaultStorage E)
    (h : ReachableOK ops s) :
    s.ruleList = mkStrList s.urlFilterID s.rewrites ∧
    ∃ rs, ops.newRuleStorage [mkStrList s.urlFilterID s.rewrites] = Except.ok rs ∧
      s.engine = ops.newDNSEngine rs := by
  induction h with
  | new listID rws s hnew =>
    unfold NewDefaultStorage at hnew
    cases hh : ops.newRuleStorage [mkStrList listID rws] with
    | error e => rw [hh] at hnew; exact absurd hnew (by simp)
    | ok rs =>
      rw [hh] at hnew
      cases hnew
      exact ⟨rfl, rs, hh, rfl⟩
  | add s item s2 _ hstep _ =>
    unfold DefaultStorage.Add at hstep
    cases hh : ops.newRuleStorage
        [mkStrList s.urlFilterID (s.rewrites ++ [item])] with
    | error e =>
      rw [resetRules_error ops _ e hh] at hstep
      exact absurd (congrArg Prod.fst hstep) (by simp)
    | ok rs =>
      rw [resetRules_ok ops _ rs hh] at hstep
      cases hstep
      exact ⟨rfl, rs, hh, rfl⟩
  | remove s item s2 _ hstep _ =>
    unfold DefaultStorage.Remove at hstep
    cases hh : ops.newRuleStorage
        [mkStrList s.urlFilterID
          (s.rewrites.filter (fun ent => !Item.equal (some ent) (some item)))] with
    | error e =>
      rw [resetRules_error ops _ e hh] at hstep
      exact absurd (congrArg Prod.fst hstep) (by simp)
    | ok rs =>
      rw [resetRules_ok ops _ rs hh] at hstep
      cases hstep
      exact ⟨rfl, rs, hh, rfl⟩

theorem addAll_ok_rewrites (ops : EngineOps RS E) (its : List Item) :
    ∀ s : DefaultStorage E,
      (addAll ops s its).1 = true → (addAll ops s its).2.rewrites = s.rewrites ++ its := by
  induction its with
  | nil => intro s _; simp [addAll]
  | cons it its ih =>
    intro s h
    have hred : addAll ops s (it :: its) =
        match DefaultStorage.Add ops s it with
        | (Except.ok _, s2) => addAll ops s2 its
        | (Except.error _, s2) => (false, s2) := rfl
    rw [hred] at h ⊢
    revert h
    cases hc : DefaultStorage.Add ops s it with
    | mk r s2 =>
      cases r with
      | error e => intro h; exact Bool.noConfusion (h : false = true)
      | ok u =>
        intro h
        have h2 : (addAll ops s2 its).1 = true := h
        have hrw : s2.rewrites = s.rewrites ++ [it] := by
          have hfr := (resetRules_frame ops { s with rewrites := s.rewrites ++ [it] }).1
          unfold DefaultStorage.Add at hc
          rw [hc] at hfr
          exact hfr
        show (addAll ops s2 its).2.rewrites = s.rewrites ++ it :: its
        rw [ih s2 h2, hrw, List.append_assoc, List.singleton_append]

theorem observed_ne_of_write (heap : Nat → Item) (s : HeapStorage) (a : Nat) (it : Item)
    (ha : a ∈ s.rewrites) (hne : it ≠ heap a) :
    HeapStorage.observed (heapWrite heap a it) s ≠ HeapStorage.observed heap s := by
  intro hEq
  have := List.map_inj_left.mp hEq a ha
  simp only [heapWrite, if_pos rfl] at this
  exact hne this

/-! ### Claim C1 -/

/-- Claim C1 is false on the code: a store built from no items (build of the
empty text succeeds), then an `Add` whose rebuild fails, returns the error —
but the appended item is visible to a later `List`, so the externally visible
state is not the pre-call state. -/
theorem c1_counterexample :
    NewDefaultStorage failOps 1 [] = Except.ok c1s0
    ∧ (DefaultStorage.Add failOps c1s0 cexItem).1 =
        Except.error "creating list storage: boom"
    ∧ DefaultStorage.List (DefaultStorage.Add failOps c1s0 cexItem).2 ≠
        DefaultStorage.List c1s0 := by
  refine ⟨by rfl, by rfl, by decide⟩

/-- Claim C1 (amended): when the engine rebuild inside `Add` fails, `Add`
returns that error (wrapped) and the committed `ruleList` and `engine` are
the pre-call ones, but the appended item remains in the stored sequence and
is visible to later `List` calls: the list mutation is not rolled back. -/
theorem c1_add_error_no_rollback (ops : EngineOps RS E) (s : DefaultStorage E)
    (item : Item) (e : String)
    (h : ops.newRuleStorage [mkStrList s.urlFilterID (s.rewrites ++ [item])] =
      Except.error e) :
    DefaultStorage.Add ops s item =
      (Except.error ("creating list storage: " ++ e),
        { s with rewrites := s.rewrites ++ [item] }) := by
  unfold DefaultStorage.Add
  exact resetRules_error ops { s with rewrites := s.rewrites ++ [item] } e h

/-- Witness for C1 (amended) at a concrete failing build. -/
theorem c1_witness :
    failOps.newRuleStorage [mkStrList c1s0.urlFilterID (c1s0.rewrites ++ [cexItem])] =
      Except.error "boom"
    ∧ DefaultStorage.Add failOps c1s0 cexItem =
        (Except.error ("creating list storage: " ++ "boom"),
          { c1s0 with rewrites := c1s0.rewrites ++ [cexItem] }) :=
  ⟨by rfl, c1_add_error_no_rollback failOps c1s0 cexItem "boom" (by rfl)⟩

/-! ### Claim C2 -/

/-- Claim C2 is false on the code for states reached through a failed
rebuild: after an `Add` whose rebuild errored, the committed rule text no
longer equals the newline-joined `toRule` text of the stored sequence. -/
theorem c2_counterexample :
    NewDefaultStorage failOps 1 [] = Except.ok c1s0
    ∧ (DefaultStorage.Add failOps c1s0 cexItem).1 =
        Except.error "creating list storage: boom"
    ∧ (DefaultStorage.Add failOps c1s0 cexItem).2.ruleList.RulesText ≠
        String.intercalate "\n"
          ((DefaultStorage.Add failOps c1s0 cexItem).2.rewrites.map Item.toRule) := by
  refine ⟨by rfl, by rfl, by decide⟩

/-- Claim C2 (amended): in every state reachable from a successful
construction through `Add`/`Remove` calls whose rebuild succeeded, the
committed rule list is exactly the one built from the stored sequence —
newline-joined `toRule` text in sequence order, tagged with the store's
synthetic identifier — and the committed engine is the one the collaborator
derived from it. -/
theorem c2_reachable_consistent (ops : EngineOps RS E) (s : DefaultStorage E)
    (h : ReachableOK ops s) :
    s.ruleList = mkStrList s.urlFilterID s.rewrites
    ∧ ∃ rs, ops.newRuleStorage [mkStrList s.urlFilterID s.rewrites] = Except.ok rs
        ∧ s.engine = ops.newDNSEngine rs :=
  reachableOK_invariant ops s h

/-- Witness for C2 (amended) at a state reached by a construction and one
successful `Add`. -/
theorem c2_witness :
    w2s1.ruleList = mkStrList w2s1.urlFilterID w2s1.rewrites
    ∧ ∃ rs, okOps.newRuleStorage [mkStrList w2s1.urlFilterID w2s1.rewrites] = Except.ok rs
        ∧ w2s1.engine = okOps.newDNSEngine rs :=
  c2_reachable_consistent okOps w2s1
    (ReachableOK.add w2state cexItem w2s1
      (ReachableOK.new 7 [] w2state (by rfl)) (by rfl))

/-! ### Claim C3 -/

/-- Claim C3 is false on the code: `Normalize` does not set the exception
flag to false in the IP branches — an item whose flag is already set and
whose answer is the IPv4 literal `1.2.3.4` keeps `Exception = true`, where
the claim requires `false`. -/
theorem c3_counterexample :
    Item.Normalize (some ⟨"x", "1.2.3.4", 0, true⟩) =
      Except.ok ⟨"x", "1.2.3.4", dns.TypeA, true⟩
    ∧ "1.2.3.4" ≠ "A" ∧ "1.2.3.4" ≠ "AAAA"
    ∧ (to4 ((parseIP "1.2.3.4").getD [])).isSome = true := by
  refine ⟨by rfl, by decide, by decide, by decide⟩

/-- Claim C3 (amended): after `Normalize` the domain is the lower-cased prior
domain and the answer is unchanged; the kind derives from the answer with the
sentinel comparisons performed before IP parsing (`"AAAA"` then `"A"`, then
IPv4 / IPv6 by parse, else CNAME); the exception flag becomes true in the two
sentinel branches and otherwise retains its prior value (it is not reset to
false). -/
theorem c3_normalize_classification (it : Item) :
    Item.Normalize (some it) =
      Except.ok
        { Domain := goToLower it.Domain
          Answer := it.Answer
          Typ :=
            if it.Answer = "AAAA" then dns.TypeAAAA
            else if it.Answer = "A" then dns.TypeA
            else
              match parseIP it.Answer with
              | none => dns.TypeCNAME
              | some ip => if (to4 ip).isSome then dns.TypeA else dns.TypeAAAA
          Exception := if it.Answer = "AAAA" ∨ it.Answer = "A" then true
                       else it.Exception } := by
  show Except.ok it.normalize = _
  rw [normalize_eq]

/-! ### Claim C4 -/

/-- Claim C4: `Remove` keeps exactly the entries not structurally equal to
the argument (so it deletes every equal entry, not only the first); removing
an item equal to no stored entry leaves `List` unchanged and returns whatever
rebuilding the unchanged state returns — success whenever the store's current
rule text builds, as it does for every committed state; and after adding two
structurally equal items one `Remove` with an equal item deletes both. -/
theorem c4_remove_all_equal (ops : EngineOps RS E) (s : DefaultStorage E)
    (item a b : Item) :
    (DefaultStorage.Remove ops s item).2.rewrites =
      s.rewrites.filter (fun ent => !Item.equal (some ent) (some item))
    ∧ ((∀ ent ∈ s.rewrites, Item.equal (some ent) (some item) = false) →
        DefaultStorage.List (DefaultStorage.Remove ops s item).2 = DefaultStorage.List s
        ∧ (DefaultStorage.Remove ops s item).1 = (resetRules ops s).1
        ∧ ((resetRules ops s).1 = Except.ok () →
            (DefaultStorage.Remove ops s item).1 = Except.ok ()))
    ∧ (Item.equal (some a) (some item) = true → Item.equal (some b) (some item) = true →
        (DefaultStorage.Remove ops
            (DefaultStorage.Add ops (DefaultStorage.Add ops s a).2 b).2 item).2.rewrites =
          s.rewrites.filter (fun ent => !Item.equal (some ent) (some item))) := by
  have hframe : ∀ t : DefaultStorage E,
      (DefaultStorage.Remove ops t item).2.rewrites =
        t.rewrites.filter (fun ent => !Item.equal (some ent) (some item)) := by
    intro t
    unfold DefaultStorage.Remove
    exact (resetRules_frame ops
      { t with rewrites := t.rewrites.filter (fun ent => !Item.equal (some ent) (some item)) }).1
  refine ⟨hframe s, ?_, ?_⟩
  · intro hnone
    have hfil : s.rewrites.filter (fun ent => !Item.equal (some ent) (some item)) =
        s.rewrites :=
      List.filter_eq_self.mpr (fun ent hent => by rw [hnone ent hent]; rfl)
    have hsame : DefaultStorage.Remove ops s item = resetRules ops s := by
      unfold DefaultStorage.Remove
      rw [hfil]
    refine ⟨?_, by rw [hsame], fun hok => by rw [hsame]; exact hok⟩
    show (DefaultStorage.Remove ops s item).2.rewrites = s.rewrites
    rw [hframe s, hfil]
  · intro ha hb
    rw [hframe, add_append_rewrites, add_append_rewrites,
      List.filter_append, List.filter_append]
    simp [ha, hb]

/-- Witness for C4 at a store holding one non-matching entry. -/
theorem c4_witness :
    (DefaultStorage.Remove okOps s4 s4item).2.rewrites =
      s4.rewrites.filter (fun ent => !Item.equal (some ent) (some s4item))
    ∧ (DefaultStorage.List (DefaultStorage.Remove okOps s4 s4item).2 =
          DefaultStorage.List s4
        ∧ (DefaultStorage.Remove okOps s4 s4item).1 = (resetRules okOps s4).1
        ∧ ((resetRules okOps s4).1 = Except.ok () →
            (DefaultStorage.Remove okOps s4 s4item).1 = Except.ok ()))
    ∧ (DefaultStorage.Remove okOps
          (DefaultStorage.Add okOps (DefaultStorage.Add okOps s4 s4a).2 s4item).2
          s4item).2.rewrites =
        s4.rewrites.filter (fun ent => !Item.equal (some ent) (some s4item)) := by
  have h := c4_remove_all_equal okOps s4 s4item s4a s4item
  exact ⟨h.1, h.2.1 (by decide), h.2.2 (by decide) (by decide)⟩

/-! ### Claim C5 -/

/-- Claim C5 is false on the code: the store's structural equality compares
domains exactly, not case-insensitively — two items whose domains differ only
in case (and whose answers match exactly) are not `equal`. -/
theorem c5_counterexample :
    Item.equal (some ⟨"A.com", "x", 0, false⟩) (some ⟨"a.com", "x", 0, false⟩) = false
    ∧ goToLower "A.com" = goToLower "a.com" := by
  refine ⟨by decide, by decide⟩

/-- Claim C5 (amended): the structural equality used by the store holds iff
the domains match exactly and the answers match exactly (both comparisons
case-sensitive; the derived kind and exception fields are ignored). -/
theorem c5_equal_iff (a b : Item) :
    Item.equal (some a) (some b) = true ↔ a.Domain = b.Domain ∧ a.Answer = b.Answer := by
  simp [Item.equal]

/-! ### Claim C6 -/

/-- Claim C6: `toRule` renders exactly one template instance: for exception
items `@@||<domain>^$dnstype=<KIND>,dnsrewrite`, which is independent of the
answer value (any answer yields the same rule); otherwise
`|<domain>^$dnsrewrite=NOERROR;<KIND>;<answer>`; in both cases the domain and
answer are concatenated verbatim (no escaping). -/
theorem c6_toRule_templates (it : Item) (ans : String) :
    (it.Exception = true →
      it.toRule =
        "@@||" ++ it.Domain ++ "^$dnstype=" ++ dns.TypeToString it.Typ ++ ",dnsrewrite"
      ∧ Item.toRule { it with Answer := ans } = it.toRule)
    ∧ (it.Exception = false →
      it.toRule =
        "|" ++ it.Domain ++ "^$dnsrewrite=NOERROR;" ++ dns.TypeToString it.Typ ++ ";"
          ++ it.Answer) := by
  constructor
  · intro h
    constructor
    · simp [Item.toRule, h]
    · simp [Item.toRule, h]
  · intro h
    simp [Item.toRule, h]

/-- Witness for C6 at a normalized exception item and a normalized rewrite
item. -/
theorem c6_witness :
    (Item.toRule ⟨"example.com", "A", dns.TypeA, true⟩ =
        "@@||" ++ "example.com" ++ "^$dnstype=" ++ dns.TypeToString dns.TypeA
          ++ ",dnsrewrite"
      ∧ Item.toRule ⟨"example.com", "other", dns.TypeA, true⟩ =
          Item.toRule ⟨"example.com", "A", dns.TypeA, true⟩)
    ∧ Item.toRule ⟨"example.com", "1.2.3.4", dns.TypeA, false⟩ =
        "|" ++ "example.com" ++ "^$dnsrewrite=NOERROR;" ++ dns.TypeToString dns.TypeA
          ++ ";" ++ "1.2.3.4" :=
  ⟨(c6_toRule_templates ⟨"example.com", "A", dns.TypeA, true⟩ "other").1 rfl,
   (c6_toRule_templates ⟨"example.com", "1.2.3.4", dns.TypeA, false⟩ "z").2 rfl⟩

/-! ### Claim C7 -/

/-- Claim C7 is false on the code: `List` clones only the slice of pointers,
so mutating the Item behind a returned pointer changes the store's later
observable sequence. -/
theorem c7_counterexample :
    0 ∈ HeapStorage.ListPtrs c7store
    ∧ HeapStorage.observed (heapWrite c7heap 0 c7item) c7store ≠
        HeapStorage.observed c7heap c7store := by
  refine ⟨by decide, by decide⟩

/-- Claim C7 (amended): `List` returns a fresh slice holding the same item
pointers, so replacing entries of the returned slice cannot affect the store,
but the pointed-to items themselves are shared: mutating the item behind any
returned pointer changes the store's later observable sequence. -/
theorem c7_list_shallow_clone (heap : Nat → Item) (s : HeapStorage) (a : Nat) (it : Item)
    (ha : a ∈ HeapStorage.ListPtrs s) (hne : it ≠ heap a) :
    HeapStorage.ListPtrs s = s.rewrites
    ∧ HeapStorage.observed (heapWrite heap a it) s ≠ HeapStorage.observed heap s :=
  ⟨rfl, observed_ne_of_write heap s a it ha hne⟩

/-- Witness for C7 (amended) at a concrete heap and store. -/
theorem c7_witness :
    HeapStorage.ListPtrs c7store = c7store.rewrites
    ∧ HeapStorage.observed (heapWrite c7heap 0 c7item) c7store ≠
        HeapStorage.observed c7heap c7store :=
  c7_list_shallow_clone c7heap c7store 0 c7item (by decide) (by decide)

/-! ### Claim C8 -/

/-- Claim C8: starting from a store constructed with no items, if every `Add`
in a sequence succeeded then `List` returns exactly the added items in the
order they were added; moreover every single `Add` appends its item at the
end of the sequence unconditionally, so structural duplicates are admitted
(no uniqueness constraint). -/
theorem c8_add_in_order (ops : EngineOps RS E) (s0 s : DefaultStorage E)
    (listID : Int) (its : List Item) (item : Item)
    (hnew : NewDefaultStorage ops listID [] = Except.ok s0)
    (hok : (addAll ops s0 its).1 = true) :
    DefaultStorage.List (addAll ops s0 its).2 = its
    ∧ (DefaultStorage.Add ops s item).2.rewrites = s.rewrites ++ [item] := by
  constructor
  · have h0 : s0.rewrites = [] := by
      unfold NewDefaultStorage at hnew
      cases hh : ops.newRuleStorage [mkStrList listID []] with
      | error e => rw [hh] at hnew; exact absurd hnew (by simp)
      | ok rs => rw [hh] at hnew; cases hnew; rfl
    have hal := addAll_ok_rewrites ops its s0 hok
    show (addAll ops s0 its).2.rewrites = its
    rw [hal, h0, List.nil_append]
  · exact add_append_rewrites ops s item

/-- Witness for C8: two distinct items added to a freshly constructed empty
store, plus one `Add` of a duplicate of an existing entry. -/
theorem c8_witness :
    DefaultStorage.List (addAll okOps w8s0 [w8a, w8b]).2 = [w8a, w8b]
    ∧ (DefaultStorage.Add okOps (addAll okOps w8s0 [w8a, w8b]).2 w8a).2.rewrites =
        (addAll okOps w8s0 [w8a, w8b]).2.rewrites ++ [w8a] :=
  c8_add_in_order okOps w8s0 (addAll okOps w8s0 [w8a, w8b]).2 3 [w8a, w8b] w8a
    (by rfl) (by decide)

/-! ### Claim C9 -/

/-- Claim C9: `Normalize` fails exactly on the nil item, and the failure is
the validation error `nil rewrite entry`; for every non-nil item, whatever
its domain and answer, it succeeds. -/
theorem c9_normalize_error_iff_nil (o : Option Item) :
    ((∃ e, Item.Normalize o = Except.error e) ↔ o = none)
    ∧ Item.Normalize none = Except.error "nil rewrite entry" := by
  refine ⟨⟨?_, ?_⟩, rfl⟩
  · rintro ⟨e, he⟩
    cases o with
    | none => rfl
    | some it => exact absurd he (by simp [Item.Normalize])
  · rintro rfl
    exact ⟨"nil rewrite entry", rfl⟩

/-! ### Claim C10 -/

/-- Claim C10: `Normalize` is idempotent — the first application of the
non-nil branch yields `it.normalize`, and a second application succeeds and
leaves all four fields exactly as the first left them. -/
theorem c10_normalize_idem (it : Item) :
    Item.Normalize (some it) = Except.ok it.normalize
    ∧ Item.Normalize (some it.normalize) = Except.ok it.normalize := by
  refine ⟨rfl, ?_⟩
  show Except.ok it.normalize.normalize = Except.ok it.normalize
  rw [normalize_eq it, normalize_eq]
  by_cases h1 : it.Answer = "AAAA"
  · simp [h1, goToLower_idem]
  · by_cases h2 : it.Answer = "A"
    · simp [h1, h2, goToLower_idem]
    · simp [h1, h2, goToLower_idem]

end AdGuard
